import Mathlib

/-!
Verification of the TaskMaster dashboard (`src/taskmaster.py`).

The MongoDB collection `tasks_collection` is modelled as a list of documents
in insertion order. Python dictionary access `t["k"]` on a possibly missing
key is modelled with `Option`-valued fields: reading an absent key is `none`
(a `KeyError` in Python makes the render fail, hence render functions that
perform such accesses return `Option`). `str.strip()` is modelled by
`pyStrip`, which removes whitespace from both ends of the string.
-/

namespace TaskMaster

/-- Python `str.strip()`: remove leading and trailing whitespace. -/
def pyStrip (s : String) : String :=
  ⟨((s.data.dropWhile Char.isWhitespace).reverse.dropWhile Char.isWhitespace).reverse⟩

/-- The raw value stored under the `DueDate` key of a document: a proper
datetime (dates are abstracted to natural numbers preserving order), a value
that `pd.to_datetime(..., errors=coerce)` fails to parse, or an absent key
(`t.get("DueDate", "N/A")` then yields the unparseable string `N/A`). -/
inductive DueVal where
  | date (d : Nat)
  | invalid
  | missing
deriving DecidableEq

/-- `pd.to_datetime(..., errors=coerce)` on a `DueVal`; `none` is `NaT`,
subsequently removed by `dropna`. -/
def parseDue : DueVal → Option Nat
  | .date d => some d
  | .invalid => none
  | .missing => none

/-- One document of `tasks_collection`. `Status` and `Priority` are
`Option`-valued because the dashboard reads `Status` by direct indexing
(which can fail) and `Priority` via `.get` with a default. Fields written by
`insert_one` are always present. -/
structure Doc where
  _id : Nat
  Username : String
  Task : String
  Status : Option String
  Priority : Option String
  DueDate : DueVal
  CreatedAt : Nat
deriving DecidableEq

def STATUS_OPTIONS : List String := ["Pending", "In Progress", "Completed"]

def PRIORITY_OPTIONS : List String := ["High", "Medium", "Low"]

/-- Sorting relation of `.sort("CreatedAt", -1)`: `CreatedAt` descending. -/
def byCreatedDesc (a b : Doc) : Prop := b.CreatedAt ≤ a.CreatedAt

instance : DecidableRel byCreatedDesc :=
  fun a b => inferInstanceAs (Decidable (b.CreatedAt ≤ a.CreatedAt))

instance : IsTotal Doc byCreatedDesc :=
  ⟨fun a b => (Nat.le_total b.CreatedAt a.CreatedAt).imp id id⟩

instance : IsTrans Doc byCreatedDesc :=
  ⟨fun _ _ _ hab hbc => Nat.le_trans hbc hab⟩

/-- Line 100: `list(tasks_collection.find({"Username": owner}).sort("CreatedAt", -1))`
where `owner` is the already stripped username. -/
def all_tasks (store : List Doc) (owner : String) : List Doc :=
  List.insertionSort byCreatedDesc (store.filter (fun t => t.Username == owner))

/-- Lines 75-88: the add-task submit handler. Returns the store after the
action together with a flag telling whether the validation warning was shown.
`new_id` and `created_at` stand for the ObjectId and `datetime.utcnow()`
assigned at insertion time. -/
def submit_new_task (store : List Doc) (username task_name task_priority : String)
    (task_due_date : Nat) (created_at : Nat) (new_id : Nat) : List Doc × Bool :=
  if pyStrip task_name = "" then (store, true)
  else
    (store ++ [⟨new_id, pyStrip username, pyStrip task_name, some "Pending",
      some task_priority, DueVal.date task_due_date, created_at⟩], false)

/-- The `$set` document of the Save action (lines 207-211): only `Task`,
`Status` and `Priority` keys are written. -/
def apply_set (t : Doc) (newTask newStatus newPriority : String) : Doc :=
  ⟨t._id, t.Username, newTask, some newStatus, some newPriority, t.DueDate, t.CreatedAt⟩

/-- Line 212: `tasks_collection.update_one({"_id": i}, {"$set": updates})` —
updates the first document whose `_id` matches, no-op when none matches. -/
def update_one : List Doc → Nat → String → String → String → List Doc
  | [], _, _, _, _ => []
  | t :: ts, i, nt, ns, np =>
    if t._id = i then apply_set t nt ns np :: ts
    else t :: update_one ts i nt ns np

/-- Line 217: `tasks_collection.delete_one({"_id": i})` — removes the first
document whose `_id` matches, no-op when none matches. -/
def delete_one : List Doc → Nat → List Doc
  | [], _ => []
  | t :: ts, i => if t._id = i then ts else t :: delete_one ts i

/-- Lines 200-213: the Save handler of an editable row; it posts
`new_task_name.strip()` together with the selected status and priority,
with no validation of the edited title. -/
def save_task (store : List Doc) (i : Nat) (new_task_name new_status new_priority : String) :
    List Doc :=
  update_one store i (pyStrip new_task_name) new_status new_priority

/-- Lines 97-103: the fetch with its `try/except`. On a query error the
message is displayed (`true` flag) and `all_tasks` is set to `[]`. -/
def render_fetch (res : Except String (List Doc)) : List Doc × Bool :=
  match res with
  | .ok ts => (ts, false)
  | .error _ => ([], true)

/-- The accesses `t["Status"]` performed across a task list, failing on the
first document that lacks the key. -/
def statuses : List Doc → Option (List String)
  | [] => some []
  | t :: ts =>
    match t.Status with
    | none => none
    | some s => (statuses ts).map (fun r => s :: r)

/-- Line 110: `sum(1 for t in all_tasks if t["Status"] == "Completed")`. -/
def completed_tasks (ts : List Doc) : Option Nat :=
  (statuses ts).map (fun ss => (ss.filter (fun s => s == "Completed")).length)

/-- Line 111: `pending_tasks = total_tasks - completed_tasks`. -/
def pending_tasks (ts : List Doc) : Option Nat :=
  (completed_tasks ts).map (fun c => ts.length - c)

/-- One row of the upcoming-deadlines table (lines 149-156): title, priority
defaulted to Medium, and the parsed due date. -/
structure Row where
  Task : String
  Priority : String
  DueDate : Nat
deriving DecidableEq

/-- Build the row of one pending task, dropping it when its due date fails
to parse (`to_datetime` coerce + `dropna`, lines 159-160). -/
def rowOf (t : Doc) : Option Row :=
  (parseDue t.DueDate).map (fun d => ⟨t.Task, t.Priority.getD "Medium", d⟩)

/-- The comprehension filter of line 155: keep `t["Status"] != "Completed"`,
failing on a document without a `Status` key. -/
def pending_filter : List Doc → Option (List Doc)
  | [] => some []
  | t :: ts =>
    match t.Status with
    | none => none
    | some s => (pending_filter ts).map (fun r => if s = "Completed" then r else t :: r)

/-- Sorting relation of `sort_values(by="DueDate")`: due date ascending. -/
def byDueAsc (a b : Row) : Prop := a.DueDate ≤ b.DueDate

instance : DecidableRel byDueAsc :=
  fun a b => inferInstanceAs (Decidable (a.DueDate ≤ b.DueDate))

instance : IsTotal Row byDueAsc := ⟨fun a b => Nat.le_total a.DueDate b.DueDate⟩

instance : IsTrans Row byDueAsc := ⟨fun _ _ _ hab hbc => Nat.le_trans hab hbc⟩

/-- Lines 149-163: the upcoming-deadlines table `pending_df` — filter out
completed tasks, drop rows whose due date does not parse, sort ascending by
due date. -/
def pending_rows (ts : List Doc) : Option (List Row) :=
  (pending_filter ts).map (fun ps => List.insertionSort byDueAsc (ps.filterMap rowOf))

/-- Line 191: `[t for t in all_tasks if t["Status"] in filter_status]`,
failing on a document without a `Status` key. -/
def filtered_tasks : List Doc → List String → Option (List Doc)
  | [], _ => some []
  | t :: ts, fil =>
    match t.Status with
    | none => none
    | some s => (filtered_tasks ts fil).map (fun r => if s ∈ fil then t :: r else r)

/-- Lines 200-204: one editable row — the title text input, the status
selectbox initialised at `STATUS_OPTIONS.index(task["Status"])` (a Python
`.index` raises when absent), and the priority selectbox initialised at
`PRIORITY_OPTIONS.index(task.get("Priority", "Medium"))`. -/
def row_render (t : Doc) : Option (String × Nat × Nat) :=
  match t.Status with
  | none => none
  | some s =>
    match STATUS_OPTIONS.findIdx? (fun o => o == s) with
    | none => none
    | some si =>
      match PRIORITY_OPTIONS.findIdx? (fun o => o == t.Priority.getD "Medium") with
      | none => none
      | some pi => some (t.Task, si, pi)

/-- Render every editable row, failing as soon as one row fails. -/
def render_rows : List Doc → Option (List (String × Nat × Nat))
  | [] => some []
  | t :: ts =>
    match row_render t with
    | none => none
    | some r => (render_rows ts).map (fun rs => r :: rs)

/-- Everything the dashboard body displays for one render: the three KPI
metrics, the upcoming-deadlines table and the editable rows. -/
structure RenderOut where
  total : Nat
  completed : Nat
  pending : Nat
  upcoming : List Row
  edits : List (String × Nat × Nat)
deriving DecidableEq

/-- One render pass over a fetched task list: the KPI metrics (lines
108-111), the upcoming-deadlines table (lines 146-174), and the editable
list under the status filter (lines 184-204). `none` means the render fails
with an uncaught exception. -/
def render_page (ts : List Doc) (fil : List String) : Option RenderOut :=
  match completed_tasks ts with
  | none => none
  | some c =>
    match pending_rows ts with
    | none => none
    | some rows =>
      match filtered_tasks ts fil with
      | none => none
      | some ft =>
        match render_rows ft with
        | none => none
        | some edits => some ⟨ts.length, c, ts.length - c, rows, edits⟩

/-- The document inserted by a valid add-task submission (lines 79-86). -/
def new_doc (username task_name task_priority : String) (td ca nid : Nat) : Doc :=
  ⟨nid, pyStrip username, pyStrip task_name, some "Pending", some task_priority,
    DueVal.date td, ca⟩

/-- A well-formed task document as produced by the add-task form. -/
def docA : Doc := ⟨1, "Alex", "Write report", some "Pending", some "High", DueVal.date 10, 5⟩

/-- A completed task of another owner. -/
def docB : Doc := ⟨2, "Blair", "Ship build", some "Completed", some "Low", DueVal.date 3, 7⟩

/-- A document whose `Status` value is outside the fixed enumeration. -/
def docBogus : Doc := ⟨3, "Alex", "odd one", some "Bogus", some "Medium", DueVal.date 5, 1⟩

/-- A document lacking the `Status` key. -/
def docNoStatus : Doc := ⟨4, "Alex", "broken", none, some "Low", DueVal.date 2, 2⟩

/-- A document lacking the `Priority` key and the `DueDate` key. -/
def docNoPriority : Doc := ⟨5, "Alex", "plain", some "Pending", none, DueVal.missing, 3⟩

/-- Claim C1: for every owner `o`, the listing returns only tasks whose
`Username` field equals `o`; other owners' tasks never appear. -/
theorem c1_listing_owner_scoped (store : List Doc) (o : String) (t : Doc)
    (h : t ∈ all_tasks store o) : t.Username = o := by
  have h1 : t ∈ store.filter (fun t => t.Username == o) := (List.mem_insertionSort byCreatedDesc).mp h
  exact eq_of_beq (List.mem_filter.mp h1).2

/-- Witness for C1 at a concrete store. -/
theorem c1_listing_owner_scoped_witness :
    docA ∈ all_tasks [docA, docB] "Alex" ∧ docA.Username = "Alex" :=
  ⟨by decide, c1_listing_owner_scoped [docA, docB] "Alex" docA (by decide)⟩

/-- Claim C4: a submission whose title strips to the empty string is
rejected: the warning is shown and the store is returned unchanged. -/
theorem c4_empty_title_rejected (store : List Doc)
    (username task_name task_priority : String) (td ca nid : Nat)
    (h : pyStrip task_name = "") :
    submit_new_task store username task_name task_priority td ca nid = (store, true) := by
  simp [submit_new_task, h]

/-- Witness for C4: a whitespace-only title at a concrete store. -/
theorem c4_empty_title_rejected_witness :
    pyStrip "   " = "" ∧
    submit_new_task [docA] "Alex" "   " "High" 9 9 9 = ([docA], true) :=
  ⟨by decide, c4_empty_title_rejected [docA] "Alex" "   " "High" 9 9 9 (by decide)⟩

/-- Claim C7: update and delete with an `_id` matching no document are
silent no-ops: the store is unchanged. -/
theorem c7_missing_id_noop (store : List Doc) (i : Nat) (nt ns np : String)
    (h : ∀ t ∈ store, t._id ≠ i) :
    update_one store i nt ns np = store ∧ delete_one store i = store := by
  induction store with
  | nil => exact ⟨rfl, rfl⟩
  | cons t ts ih =>
    have ht : t._id ≠ i := h t (List.mem_cons_self t ts)
    have ih2 := ih (fun x hx => h x (List.mem_cons_of_mem t hx))
    simp [update_one, delete_one, ht, ih2.1, ih2.2]

/-- Witness for C7 at a concrete store and a fresh id. -/
theorem c7_missing_id_noop_witness :
    (∀ t ∈ [docA, docB], t._id ≠ 99) ∧
    (update_one [docA, docB] 99 "x" "Pending" "Low" = [docA, docB] ∧
      delete_one [docA, docB] 99 = [docA, docB]) :=
  ⟨by decide, c7_missing_id_noop [docA, docB] 99 "x" "Pending" "Low" (by decide)⟩

/-- Claim C8: when the listing query fails, the error flag is shown and the
render proceeds with the empty task list; every derived value is that of an
empty list and the render succeeds. -/
theorem c8_query_error_empty_render (e : String) (fil : List String) :
    render_fetch (Except.error e) = ([], true) ∧
    completed_tasks [] = some 0 ∧ pending_tasks [] = some 0 ∧
    pending_rows [] = some [] ∧ filtered_tasks [] fil = some [] ∧
    render_page [] fil = some ⟨0, 0, 0, [], []⟩ :=
  ⟨rfl, rfl, rfl, rfl, rfl, rfl⟩

/-- Claim C3: the save path writes only `Task`, `Status`, `Priority`. Every
document keeps its `_id`, `Username`, `DueDate`, `CreatedAt`, every document
whose `_id` differs from the target is fully unchanged, and each document is
either unchanged or is the `$set` image of its old value. -/
theorem c3_update_frame (store : List Doc) (i : Nat) (nt ns np : String) :
    List.Forall₂ (fun t t' =>
      t'._id = t._id ∧ t'.Username = t.Username ∧ t'.DueDate = t.DueDate ∧
      t'.CreatedAt = t.CreatedAt ∧ (t._id ≠ i → t' = t) ∧
      (t' = t ∨ t' = apply_set t nt ns np))
      store (update_one store i nt ns np) := by
  induction store with
  | nil => exact List.Forall₂.nil
  | cons t ts ih =>
    by_cases h : t._id = i
    · simp only [update_one, if_pos h]
      refine List.Forall₂.cons ⟨rfl, rfl, rfl, rfl, fun hne => absurd h hne, Or.inr rfl⟩ ?_
      exact List.forall₂_same.mpr (fun a _ => ⟨rfl, rfl, rfl, rfl, fun _ => rfl, Or.inl rfl⟩)
    · simp only [update_one, if_neg h]
      exact List.Forall₂.cons ⟨rfl, rfl, rfl, rfl, fun _ => rfl, Or.inl rfl⟩ ih

/-- Witness for C3 at a concrete store and update. -/
theorem c3_update_frame_witness :
    List.Forall₂ (fun t t' =>
      t'._id = t._id ∧ t'.Username = t.Username ∧ t'.DueDate = t.DueDate ∧
      t'.CreatedAt = t.CreatedAt ∧ (t._id ≠ 1 → t' = t) ∧
      (t' = t ∨ t' = apply_set t "New title" "Completed" "Low"))
      [docA, docB] (update_one [docA, docB] 1 "New title" "Completed" "Low") :=
  c3_update_frame [docA, docB] 1 "New title" "Completed" "Low"

/-- Claim C6: the listing is ordered by `CreatedAt` descending, and it is the
empty list (not an error) when the owner has no tasks in the store. -/
theorem c6_listing_order_and_empty (store : List Doc) (o : String) :
    (all_tasks store o).Sorted byCreatedDesc ∧
    ((∀ t ∈ store, t.Username ≠ o) → all_tasks store o = []) := by
  constructor
  · exact List.sorted_insertionSort byCreatedDesc _
  · intro h
    have hnil : store.filter (fun t => t.Username == o) = [] := by
      rw [List.filter_eq_nil_iff]
      intro t ht
      simp only [beq_iff_eq]
      exact h t ht
    show List.insertionSort byCreatedDesc (store.filter (fun t => t.Username == o)) = []
    rw [hnil]
    rfl

/-- Witness for C6 at a concrete store and an owner without tasks. -/
theorem c6_listing_order_and_empty_witness :
    (all_tasks [docA, docB] "Nobody").Sorted byCreatedDesc ∧
    (∀ t ∈ [docA, docB], t.Username ≠ "Nobody") ∧
    all_tasks [docA, docB] "Nobody" = [] :=
  ⟨(c6_listing_order_and_empty [docA, docB] "Nobody").1, by decide,
    (c6_listing_order_and_empty [docA, docB] "Nobody").2 (by decide)⟩

/-- Claim C9: the save handler performs no title validation: saving an
existing task with a whitespace-only edited title stores the empty string as
the task's title (together with the chosen status and priority). -/
theorem c9_edit_title_unvalidated (store : List Doc) (i : Nat) (w s p : String)
    (hw : pyStrip w = "") (hin : ∃ t ∈ store, t._id = i) :
    ∃ t' ∈ save_task store i w s p,
      t'._id = i ∧ t'.Task = "" ∧ t'.Status = some s ∧ t'.Priority = some p := by
  induction store with
  | nil =>
    rcases hin with ⟨t, ht, _⟩
    cases ht
  | cons t ts ih =>
    by_cases h : t._id = i
    · have e : save_task (t :: ts) i w s p = apply_set t (pyStrip w) s p :: ts := by
        simp [save_task, update_one, h]
      refine ⟨apply_set t (pyStrip w) s p, ?_, h, hw, rfl, rfl⟩
      rw [e]
      exact List.mem_cons_self _ _
    · have e : save_task (t :: ts) i w s p = t :: save_task ts i w s p := by
        simp [save_task, update_one, h]
      rcases hin with ⟨u, hu, hui⟩
      rcases List.mem_cons.mp hu with rfl | hu2
      · exact absurd hui h
      · rcases ih ⟨u, hu2, hui⟩ with ⟨t', ht', hprops⟩
        refine ⟨t', ?_, hprops⟩
        rw [e]
        exact List.mem_cons_of_mem t ht'

/-- Witness for C9: a whitespace-only edit of an existing task. -/
theorem c9_edit_title_unvalidated_witness :
    pyStrip "   " = "" ∧ (∃ t ∈ [docA, docB], t._id = 1) ∧
    (∃ t' ∈ save_task [docA, docB] 1 "   " "In Progress" "Low",
      t'._id = 1 ∧ t'.Task = "" ∧
      t'.Status = some "In Progress" ∧ t'.Priority = some "Low") :=
  ⟨by decide, by decide,
    c9_edit_title_unvalidated [docA, docB] 1 "   " "In Progress" "Low"
      (by decide) (by decide)⟩

/-- Helper: the head of a descending insertion sort is the unique element of
strictly maximal `CreatedAt`. -/
theorem insertionSort_head_of_strict_max (l : List Doc) (d : Doc) (hd : d ∈ l)
    (hmax : ∀ x ∈ l, x ≠ d → x.CreatedAt < d.CreatedAt) :
    (List.insertionSort byCreatedDesc l).head? = some d := by
  have hperm : List.Perm (List.insertionSort byCreatedDesc l) l :=
    List.perm_insertionSort byCreatedDesc l
  have hsorted : (List.insertionSort byCreatedDesc l).Sorted byCreatedDesc :=
    List.sorted_insertionSort byCreatedDesc l
  have hdmem : d ∈ List.insertionSort byCreatedDesc l := hperm.mem_iff.mpr hd
  cases hs : List.insertionSort byCreatedDesc l with
  | nil =>
    rw [hs] at hdmem
    cases hdmem
  | cons h t =>
    rw [hs] at hdmem hsorted hperm
    have hrel : ∀ x ∈ t, byCreatedDesc h x := (List.pairwise_cons.mp hsorted).1
    have hhl : h ∈ l := hperm.mem_iff.mp (List.mem_cons_self h t)
    simp only [List.head?_cons, Option.some.injEq]
    rcases List.mem_cons.mp hdmem with rfl | hdt
    · rfl
    · have h1 : d.CreatedAt ≤ h.CreatedAt := hrel d hdt
      by_cases he : h = d
      · exact he
      · exact absurd h1 (Nat.not_le.mpr (hmax h hhl he))

/-- Claim C5: a valid submission appends exactly one new document with
status Pending, the submitted priority and due date, and the stripped
username as owner; when it is the most recently created of the owner's
tasks it appears first in the listing. -/
theorem c5_create_task (store : List Doc) (username task_name task_priority : String)
    (td ca nid : Nat)
    (h1 : pyStrip task_name ≠ "")
    (h2 : ∀ t ∈ store, t.Username = pyStrip username → t.CreatedAt < ca) :
    submit_new_task store username task_name task_priority td ca nid =
      (store ++ [new_doc username task_name task_priority td ca nid], false) ∧
    (new_doc username task_name task_priority td ca nid).Status = some "Pending" ∧
    (new_doc username task_name task_priority td ca nid).Priority = some task_priority ∧
    (new_doc username task_name task_priority td ca nid).DueDate = DueVal.date td ∧
    (new_doc username task_name task_priority td ca nid).Username = pyStrip username ∧
    (all_tasks (store ++ [new_doc username task_name task_priority td ca nid])
        (pyStrip username)).head? =
      some (new_doc username task_name task_priority td ca nid) := by
  refine ⟨by simp [submit_new_task, h1, new_doc], rfl, rfl, rfl, rfl, ?_⟩
  apply insertionSort_head_of_strict_max
  · apply List.mem_filter.mpr
    refine ⟨List.mem_append_right _ (List.mem_singleton.mpr rfl), ?_⟩
    exact beq_self_eq_true (pyStrip username)
  · intro x hx hne
    have hx2 := List.mem_filter.mp hx
    rcases List.mem_append.mp hx2.1 with hxs | hxd
    · exact h2 x hxs (eq_of_beq hx2.2)
    · exact absurd (List.mem_singleton.mp hxd) hne

/-- Witness for C5: a concrete valid submission over a store holding one
task of another owner. -/
theorem c5_create_task_witness :
    pyStrip " Write report " ≠ "" ∧
    (∀ t ∈ [docB], t.Username = pyStrip " Alex " → t.CreatedAt < 100) ∧
    (submit_new_task [docB] " Alex " " Write report " "High" 20 100 7 =
      ([docB] ++ [new_doc " Alex " " Write report " "High" 20 100 7], false) ∧
    (new_doc " Alex " " Write report " "High" 20 100 7).Status = some "Pending" ∧
    (new_doc " Alex " " Write report " "High" 20 100 7).Priority = some "High" ∧
    (new_doc " Alex " " Write report " "High" 20 100 7).DueDate = DueVal.date 20 ∧
    (new_doc " Alex " " Write report " "High" 20 100 7).Username = pyStrip " Alex " ∧
    (all_tasks ([docB] ++ [new_doc " Alex " " Write report " "High" 20 100 7])
        (pyStrip " Alex ")).head? =
      some (new_doc " Alex " " Write report " "High" 20 100 7)) :=
  ⟨by decide, by decide,
    c5_create_task [docB] " Alex " " Write report " "High" 20 100 7
      (by decide) (by decide)⟩

/-- Helper: `(some a != some b)` computes on the underlying strings. -/
theorem some_bne_some (a b : String) : (some a != some b) = (a != b) := rfl

/-- Helper: when the comprehension of line 155 succeeds, it returns the
sublist of documents whose status is not Completed. -/
theorem pending_filter_eq (ts : List Doc) (l : List Doc) (h : pending_filter ts = some l) :
    l = ts.filter (fun t => t.Status != some "Completed") := by
  induction ts generalizing l with
  | nil =>
    simp only [pending_filter, Option.some.injEq] at h
    simp [h.symm]
  | cons t ts ih =>
    cases hst : t.Status with
    | none =>
      simp only [pending_filter, hst] at h
      exact Option.noConfusion h
    | some s =>
      cases hrec : pending_filter ts with
      | none =>
        simp only [pending_filter, hst, hrec] at h
        exact Option.noConfusion h
      | some r =>
        have hr := ih r hrec
        simp only [pending_filter, hst, hrec, Option.map_some', Option.some.injEq] at h
        by_cases hc : s = "Completed"
        · rw [if_pos hc] at h
          subst h
          rw [List.filter_cons, hst, some_bne_some]
          have hb : (s != "Completed") = false := by simp [hc]
          rw [hb]
          simp [hr]
        · rw [if_neg hc] at h
          subst h
          rw [List.filter_cons, hst, some_bne_some]
          have hb : (s != "Completed") = true := by simp [hc]
          rw [hb]
          simp [hr]

/-- Claim C2: when the upcoming-deadlines table renders, its rows are
exactly the non-Completed tasks whose due date parses (rows of unparseable
or missing due dates are dropped by `rowOf`), and they are ordered
non-decreasing by due date. -/
theorem c2_upcoming_deadlines (ts : List Doc) (rows : List Row)
    (h : pending_rows ts = some rows) :
    List.Perm rows
      ((ts.filter (fun t => t.Status != some "Completed")).filterMap rowOf) ∧
    rows.Sorted byDueAsc := by
  cases hpf : pending_filter ts with
  | none =>
    rw [pending_rows, hpf] at h
    cases h
  | some ps =>
    rw [pending_rows, hpf, Option.map_some'] at h
    obtain rfl := Option.some.inj h
    constructor
    · rw [← pending_filter_eq ts ps hpf]
      exact List.perm_insertionSort byDueAsc _
    · exact List.sorted_insertionSort byDueAsc _

/-- Witness for C2: a concrete fetched list with one pending dated task, one
pending task without a due date, and one completed task. -/
theorem c2_upcoming_deadlines_witness :
    pending_rows [docA, docNoPriority, docB] = some [⟨"Write report", "High", 10⟩] ∧
    (List.Perm [(⟨"Write report", "High", 10⟩ : Row)]
      (([docA, docNoPriority, docB].filter
        (fun t => t.Status != some "Completed")).filterMap rowOf) ∧
    List.Sorted byDueAsc [(⟨"Write report", "High", 10⟩ : Row)]) :=
  ⟨by decide,
    c2_upcoming_deadlines [docA, docNoPriority, docB] [⟨"Write report", "High", 10⟩]
      (by decide)⟩

/-- Helper: the `t["Status"]` accesses fail as soon as one document lacks
the key. -/
theorem statuses_eq_none (ts : List Doc) (t : Doc) (hs : t.Status = none) :
    t ∈ ts → statuses ts = none := by
  induction ts with
  | nil =>
    intro ht
    cases ht
  | cons u us ih =>
    intro ht
    rcases List.mem_cons.mp ht with rfl | ht2
    · simp [statuses, hs]
    · cases hu : u.Status with
      | none => simp [statuses, hu]
      | some s => simp [statuses, hu, ih ht2]

/-- Helper: every document surviving the status filter carries a `Status`
value that lies in the selected subset. -/
theorem filtered_tasks_mem (ts ft : List Doc) (fil : List String)
    (h : filtered_tasks ts fil = some ft) :
    ∀ t ∈ ft, ∃ s, t.Status = some s ∧ s ∈ fil := by
  induction ts generalizing ft with
  | nil =>
    simp only [filtered_tasks, Option.some.injEq] at h
    subst h
    intro t ht
    cases ht
  | cons u us ih =>
    cases hu : u.Status with
    | none =>
      simp only [filtered_tasks, hu] at h
      exact Option.noConfusion h
    | some s =>
      cases hrec : filtered_tasks us fil with
      | none =>
        simp only [filtered_tasks, hu, hrec] at h
        exact Option.noConfusion h
      | some r =>
        simp only [filtered_tasks, hu, hrec, Option.map_some', Option.some.injEq] at h
        intro t ht
        by_cases hc : s ∈ fil
        · rw [if_pos hc] at h
          subst h
          rcases List.mem_cons.mp ht with rfl | ht2
          · exact ⟨s, hu, hc⟩
          · exact ih r hrec t ht2
        · rw [if_neg hc] at h
          subst h
          exact ih r hrec t ht

/-- Helper: a row whose status lies in the enumeration renders, and a
missing priority falls back to Medium (index 1 of `PRIORITY_OPTIONS`). -/
theorem row_render_medium (t : Doc) (s : String) (hst : t.Status = some s)
    (hs : s ∈ STATUS_OPTIONS) (hp : t.Priority = none) :
    ∃ i, row_render t = some (t.Task, i, 1) := by
  have hmed : PRIORITY_OPTIONS.findIdx? (fun o => o == t.Priority.getD "Medium") = some 1 := by
    rw [hp]
    decide
  simp only [STATUS_OPTIONS, List.mem_cons, List.mem_singleton, List.not_mem_nil, or_false] at hs
  rcases hs with rfl | rfl | rfl
  · have h1 : STATUS_OPTIONS.findIdx? (fun o => o == "Pending") = some 0 := by decide
    exact ⟨0, by simp only [row_render, hst, h1, hmed]⟩
  · have h1 : STATUS_OPTIONS.findIdx? (fun o => o == "In Progress") = some 1 := by decide
    exact ⟨1, by simp only [row_render, hst, h1, hmed]⟩
  · have h1 : STATUS_OPTIONS.findIdx? (fun o => o == "Completed") = some 2 := by decide
    exact ⟨2, by simp only [row_render, hst, h1, hmed]⟩

/-- Counterexample to claim C10: a document whose `Status` value is present
but outside the enumeration does not make the render fail — the render
succeeds, counting it as not completed, listing it among upcoming
deadlines, and silently excluding it from the editable list. -/
theorem c10_counterexample :
    docBogus.Status = some "Bogus" ∧ "Bogus" ∉ STATUS_OPTIONS ∧
    render_page [docBogus] STATUS_OPTIONS =
      some ⟨1, 0, 1, [⟨"odd one", "Medium", 5⟩], []⟩ := by decide

/-- Claim C10 (amended): a document with a missing `Status` key makes the
render fail; a document whose `Status` survives the status filter has a
present `Status` value inside the selected subset (so with the filter drawn
from the fixed enumeration, an out-of-enumeration status is excluded from
the editable list rather than failing); a missing `Priority` falls back to
Medium in the editable row. -/
theorem c10_amended :
    (∀ (ts : List Doc) (fil : List String) (t : Doc),
      t ∈ ts → t.Status = none → render_page ts fil = none) ∧
    (∀ (ts ft : List Doc) (fil : List String), filtered_tasks ts fil = some ft →
      ∀ t ∈ ft, ∃ s, t.Status = some s ∧ s ∈ fil) ∧
    (∀ (t : Doc) (s : String), t.Status = some s → s ∈ STATUS_OPTIONS →
      t.Priority = none → ∃ i, row_render t = some (t.Task, i, 1)) := by
  refine ⟨?_, ?_, ?_⟩
  · intro ts fil t ht hs
    have h1 : statuses ts = none := statuses_eq_none ts t hs ht
    simp [render_page, completed_tasks, h1]
  · exact fun ts ft fil h => filtered_tasks_mem ts ft fil h
  · exact fun t s h1 h2 h3 => row_render_medium t s h1 h2 h3

/-- Witness for the amended C10 at concrete documents. -/
theorem c10_amended_witness :
    (docNoStatus ∈ [docNoStatus] ∧ docNoStatus.Status = none ∧
      render_page [docNoStatus] STATUS_OPTIONS = none) ∧
    (filtered_tasks [docA] STATUS_OPTIONS = some [docA] ∧ docA ∈ [docA] ∧
      (∃ s, docA.Status = some s ∧ s ∈ STATUS_OPTIONS)) ∧
    (docNoPriority.Status = some "Pending" ∧ "Pending" ∈ STATUS_OPTIONS ∧
      docNoPriority.Priority = none ∧
      (∃ i, row_render docNoPriority = some (docNoPriority.Task, i, 1))) :=
  ⟨⟨by decide, rfl,
      c10_amended.1 [docNoStatus] STATUS_OPTIONS docNoStatus (by decide) rfl⟩,
   ⟨by decide, by decide,
      c10_amended.2.1 [docA] [docA] STATUS_OPTIONS (by decide) docA (by decide)⟩,
   ⟨rfl, by decide, rfl,
      c10_amended.2.2 docNoPriority "Pending" rfl (by decide) rfl⟩⟩

end TaskMaster
